import Mathlib

/-!
Verification of the resumable, checkpointed, time-bounded vector-store build
pipeline (`src/packages/rag/vector_store.py`) and the bounded-time query
executor (`src/packages/rag/retrieval_chain.py`).

The Python source is shallowly embedded:
* document content is a `List Char`; metadata is an association list
  `List (String × MVal)` mirroring a Python dict (insertion order kept,
  later keys override earlier ones);
* the filesystem state at the derived checkpoint path is an
  `Option CkBlob` (`none` = no file); a blob is either a well-formed pickle
  of `{'vector_store': ..., 'processed_count': ...}` or `corrupt` (any
  bytes that `pickle.load` fails on, covering half-written files);
* nondeterministic external events — wall-clock readings, embedding /
  insertion failures, checkpoint-write failures — are supplied by an
  `Oracle` of functions indexed by the batch start offset;
* the batch loop is fuel-indexed (the fuel is an upper bound on the number
  of iterations; `create_vector_store` supplies `length + 1`, which is
  always sufficient since the offset advances by the batch size 50 each
  iteration; a hypothetical fuel exhaustion is made visible as an explicit
  `fuelExhausted` result, never silently treated as success);
* observable side effects (checkpoint load/save/delete, final index
  persistence) are recorded in an event trace.

The `timestamp` value stored in the checkpoint dict is written by the
source but never read back anywhere in the repository, so it is omitted
from the embedded checkpoint record.
-/

/-- A metadata value; the repository only ever stores booleans, integers
and strings in document metadata. -/
inductive MVal where
  | bool (b : Bool)
  | nat (n : Nat)
  | str (s : List Char)
deriving DecidableEq

/-- A LangChain `Document`: `page_content` plus a metadata dict. -/
structure Document where
  page_content : List Char
  metadata : List (String × MVal)
deriving DecidableEq

/-- The fixed truncation marker appended by `create_vector_store`
(`vector_store.py` line 52). -/
def marker : List Char := "... [truncated]".toList

/-- The dict merge `{**metadata, "truncated": True, "original_length": n}`
performed at `vector_store.py` lines 53-56: the two new keys override any
previous bindings, remaining keys keep their order. -/
def mergeTrunc (m : List (String × MVal)) (orig : Nat) : List (String × MVal) :=
  m.filter (fun p => !(p.1 == "truncated" || p.1 == "original_length")) ++
    [("truncated", MVal.bool true), ("original_length", MVal.nat orig)]

/-- Per-document truncation, `vector_store.py` lines 50-59: content longer
than `max_chars` is cut to its first `max_chars` characters with `marker`
appended and the metadata annotated; shorter documents are appended to the
output list unchanged. -/
def truncate_doc (max_chars : Nat) (doc : Document) : Document :=
  if doc.page_content.length > max_chars then
    { page_content := doc.page_content.take max_chars ++ marker,
      metadata := mergeTrunc doc.metadata doc.page_content.length }
  else
    doc

/-- The preprocessing pass over the whole document list
(`vector_store.py` lines 48-59); the source inlines it with
`max_chars = 2000`. -/
def preprocess (max_chars : Nat) (docs : List Document) : List Document :=
  docs.map (truncate_doc max_chars)

/-- The `max_docs` limiting at `vector_store.py` lines 40-42.  The guard is
`if max_docs and len(docs) > max_docs:`, so a `max_docs` of Python `None`
or `0` (both falsy) disables the limit. -/
def limitDocs (max_docs : Option Nat) (docs : List Document) : List Document :=
  match max_docs with
  | none => docs
  | some m => if m ≠ 0 ∧ docs.length > m then docs.take m else docs

/-- Reading the `truncated` flag the way Python truthiness does
(`metadata.get("truncated")`): an absent key or a non-true value reads as
false. -/
def truncFlag (m : List (String × MVal)) : Bool :=
  match List.lookup "truncated" m with
  | some (MVal.bool b) => b
  | _ => false

/-- The checkpoint location derived from the build destination,
`vector_store.py` lines 75-77:
`Path(persist_path).parent / "checkpoints" / "vector_store_checkpoint.pkl"`.
Paths are modelled as component lists; `Path.parent` drops the last
component. -/
def checkpoint_file (persist_path : List String) : List String :=
  persist_path.dropLast ++ ["checkpoints", "vector_store_checkpoint.pkl"]

/-- The checkpoint-file content left at the checkpoint path if the process
is killed during the save at `vector_store.py` lines 130-131 (equally lines
151-152): `open(checkpoint_file, 'wb')` truncates the file in place, then
the pickled bytes are written sequentially.  `prev` is the previous file
content (`none` = absent), `data` the bytes of the new pickle, and `j` the
interruption point: `j = 0` is a crash before the `open`, and `j = k + 1`
is a crash after `k` bytes of the new data have been written. -/
def save_crash_state (prev : Option (List Nat)) (data : List Nat) (j : Nat) :
    Option (List Nat) :=
  match j with
  | 0 => prev
  | k + 1 => some (data.take k)

/-- Auxiliary: a lookup skips an association-list prefix that does not bind
the key. -/
theorem lookup_append_of_forall_ne {β : Type} (k : String)
    (l₁ l₂ : List (String × β)) (h : ∀ p ∈ l₁, p.1 ≠ k) :
    List.lookup k (l₁ ++ l₂) = List.lookup k l₂ := by
  induction l₁ with
  | nil => rfl
  | cons a t ih =>
      have ha : a.1 ≠ k := h a (List.mem_cons_self a t)
      have hk : (k == a.1) = false := by
        simp [ha.symm]
      simp only [List.cons_append, List.lookup, hk]
      exact ih (fun p hp => h p (List.mem_cons_of_mem a hp))

/-- The merged metadata binds `truncated` to `True`. -/
theorem mergeTrunc_lookup_truncated (m : List (String × MVal)) (orig : Nat) :
    List.lookup "truncated" (mergeTrunc m orig) = some (MVal.bool true) := by
  unfold mergeTrunc
  rw [lookup_append_of_forall_ne]
  · rfl
  · intro p hp
    have := List.of_mem_filter hp
    intro hk
    simp [hk] at this

/-- The merged metadata binds `original_length` to the original length. -/
theorem mergeTrunc_lookup_original (m : List (String × MVal)) (orig : Nat) :
    List.lookup "original_length" (mergeTrunc m orig) = some (MVal.nat orig) := by
  unfold mergeTrunc
  rw [lookup_append_of_forall_ne]
  · rfl
  · intro p hp
    have := List.of_mem_filter hp
    intro hk
    simp [hk] at this

/-- C2 counterexample: the claim says an interrupted save leaves either the
previous valid checkpoint or no checkpoint.  Interrupting the in-place
write after one byte (previous content `[0, 0]`, new pickle `[1, 1]`)
leaves the half-written file `[1]`, which is neither the previous content,
nor absence, nor the complete new content. -/
theorem claim_C2_counterexample :
    save_crash_state (some [0, 0]) [1, 1] 2 = some [1] ∧
    some ([1] : List Nat) ≠ some [0, 0] ∧
    some ([1] : List Nat) ≠ (none : Option (List Nat)) ∧
    some ([1] : List Nat) ≠ some [1, 1] := by
  refine ⟨rfl, ?_, ?_, ?_⟩ <;> decide

/-- Content of the checkpoint file at the derived path.  `valid vs pc`
models a pickle of `{'vector_store': <store with contents vs>,
'processed_count': pc, 'timestamp': ...}` (the timestamp is write-only in
the source and omitted); `corrupt` models any bytes `pickle.load` raises
on, e.g. the half-written files of `save_crash_state`. -/
inductive CkBlob where
  | valid (vs : List Document) (pc : Nat)
  | corrupt
deriving DecidableEq

/-- Observable filesystem events of one build, in program order. -/
inductive Ev where
  | loadCk (ok : Bool)
  | saveCk (pc : Nat) (ok : Bool)
  | deleteCk
  | persistIdx
deriving DecidableEq

/-- External nondeterminism of one build, indexed by the batch start
offset `i` of the loop iteration in which the event is observed (offsets
are strictly increasing, so this indexing is one-to-one with the source's
per-iteration reads):
`elapsed i` is the value of `time.time() - start_time` at the deadline
check of the iteration at offset `i`; `insertFails i` tells whether
`FAISS.from_documents` / `add_documents` raises for the batch starting at
`i`; `saveFails i` tells whether the checkpoint write performed during the
iteration at offset `i` raises. -/
structure Oracle where
  elapsed : Nat → Nat
  insertFails : Nat → Bool
  saveFails : Nat → Bool

/-- How the batch loop exited. -/
inductive LoopRes where
  | completed
  | timedOut
  | failed (i : Nat)
  | outOfFuel
deriving DecidableEq

/-- State at loop exit: result, in-memory store contents, processed count,
checkpoint-file state, event trace. -/
structure LoopExit where
  res : LoopRes
  vs : Option (List Document)
  pc : Nat
  ck : Option CkBlob
  tr : List Ev
deriving DecidableEq

/-- Insertion of one batch, `vector_store.py` lines 110-116:
`FAISS.from_documents(batch, ...)` creates the store from the first batch
when none exists yet; `vector_store.add_documents(batch)` appends to an
existing one.  Either way the store's contents are the documents inserted
so far, in order. -/
def insertBatch (vs : Option (List Document)) (batch : List Document) :
    List Document :=
  match vs with
  | none => batch
  | some l => l ++ batch

/-- The batch loop of `create_vector_store`, `vector_store.py`
lines 97-156: `for i in range(processed_count, len(truncated_docs), 50)`.
Per iteration, in source order: deadline check (`elapsed_time > timeout_seconds`
raises `TimeoutError`), slice `batch = truncated_docs[i:i+50]`, insertion
(creation from the first batch if the store does not exist yet, incremental
`add_documents` otherwise), then a best-effort checkpoint save when a
persist path was given.  On insertion failure the handler at lines 141-156
performs a best-effort save guarded by `if checkpoint_file and
vector_store:` and re-raises.  `fuel` bounds the number of iterations and
only decreases structurally; the caller supplies enough of it. -/
def buildLoop (orc : Oracle) (tds : List Document) (timeout_seconds : Nat)
    (hasCk : Bool) (fuel i : Nat) (vs : Option (List Document)) (pc : Nat)
    (ck : Option CkBlob) (tr : List Ev) : LoopExit :=
  match fuel with
  | 0 => ⟨LoopRes.outOfFuel, vs, pc, ck, tr⟩
  | fuel' + 1 =>
    if i < tds.length then
      if orc.elapsed i > timeout_seconds then
        ⟨LoopRes.timedOut, vs, pc, ck, tr⟩
      else
        let batch := (tds.drop i).take 50
        match orc.insertFails i with
        | true =>
          match hasCk, vs with
          | true, some l =>
            (match orc.saveFails i with
             | true => ⟨LoopRes.failed i, vs, pc, ck, tr ++ [Ev.saveCk pc false]⟩
             | false => ⟨LoopRes.failed i, vs, pc, some (CkBlob.valid l pc),
                 tr ++ [Ev.saveCk pc true]⟩)
          | _, _ => ⟨LoopRes.failed i, vs, pc, ck, tr⟩
        | false =>
          let l' := insertBatch vs batch
          let pc' := i + batch.length
          match hasCk with
          | true =>
            (match orc.saveFails i with
             | true => buildLoop orc tds timeout_seconds hasCk fuel' (i + 50)
                 (some l') pc' ck (tr ++ [Ev.saveCk pc' false])
             | false => buildLoop orc tds timeout_seconds hasCk fuel' (i + 50)
                 (some l') pc' (some (CkBlob.valid l' pc'))
                 (tr ++ [Ev.saveCk pc' true]))
          | false => buildLoop orc tds timeout_seconds hasCk fuel' (i + 50)
              (some l') pc' ck tr
    else
      ⟨LoopRes.completed, vs, pc, ck, tr⟩

/-- How `create_vector_store` terminated.  `ok` is a normal return;
`timeout` is the `TimeoutError` raised at the deadline check; `batchFailed i`
is a re-raised insertion failure for the batch at offset `i`;
`persistFailed` is the `AttributeError` from `vector_store.save_local` when
the loop finished with `vector_store` still `None` (empty input with a
persist path); `fuelExhausted` is an artifact of the fuel-indexed loop
model, unreachable for the fuel `create_vector_store` supplies. -/
inductive BResult where
  | ok
  | timeout
  | batchFailed (i : Nat)
  | persistFailed
  | fuelExhausted
deriving DecidableEq

/-- Observable outcome of one `create_vector_store` call: result kind,
final in-memory store contents, final `processed_count`, checkpoint-file
state at the derived path, contents written to `persist_path` (if any),
and the event trace. -/
structure BuildOutcome where
  result : BResult
  vs : Option (List Document)
  pc : Nat
  ck : Option CkBlob
  persisted : Option (List Document)
  trace : List Ev
deriving DecidableEq

/-- The whole build when `persist_path` is `None` (`checkpoint_file` is
`None`): just the loop over the preprocessed documents, with no checkpoint
operation and no final persistence; `vector_store.py` lines 97-180 with
every `if checkpoint_file ...` and `if persist_path ...` guard false. -/
def runNoCk (orc : Oracle) (tds : List Document) (ts : Nat)
    (fsCk : Option CkBlob) : BuildOutcome :=
  let ex := buildLoop orc tds ts false (tds.length + 1) 0 none 0 fsCk []
  match ex.res with
  | LoopRes.completed => ⟨BResult.ok, ex.vs, ex.pc, ex.ck, none, ex.tr⟩
  | LoopRes.timedOut => ⟨BResult.timeout, ex.vs, ex.pc, ex.ck, none, ex.tr⟩
  | LoopRes.failed i => ⟨BResult.batchFailed i, ex.vs, ex.pc, ex.ck, none, ex.tr⟩
  | LoopRes.outOfFuel => ⟨BResult.fuelExhausted, ex.vs, ex.pc, ex.ck, none, ex.tr⟩

/-- The loop plus the completion path when a persist path is given,
starting from the already-unpickled resume state `(vs0, pc0)`:
on normal completion the checkpoint is deleted if present
(`vector_store.py` lines 162-167) and then the store is persisted
(lines 169-172; `save_local` on a `None` store raises, surfaced as
`persistFailed`); a timeout or batch failure propagates with the
checkpoint state as the loop left it (lines 176-180 only log). -/
def runWithCk (orc : Oracle) (tds : List Document) (ts : Nat)
    (vs0 : Option (List Document)) (pc0 : Nat) (fsCk : Option CkBlob)
    (tr0 : List Ev) : BuildOutcome :=
  let ex := buildLoop orc tds ts true (tds.length + 1) pc0 vs0 pc0 fsCk tr0
  match ex.res with
  | LoopRes.completed =>
    let cleaned : Option CkBlob × List Ev :=
      match ex.ck with
      | some _ => (none, ex.tr ++ [Ev.deleteCk])
      | none => (none, ex.tr)
    match ex.vs with
    | some l =>
      ⟨BResult.ok, ex.vs, ex.pc, cleaned.1, some l, cleaned.2 ++ [Ev.persistIdx]⟩
    | none => ⟨BResult.persistFailed, none, ex.pc, cleaned.1, none, cleaned.2⟩
  | LoopRes.timedOut => ⟨BResult.timeout, ex.vs, ex.pc, ex.ck, none, ex.tr⟩
  | LoopRes.failed i => ⟨BResult.batchFailed i, ex.vs, ex.pc, ex.ck, none, ex.tr⟩
  | LoopRes.outOfFuel => ⟨BResult.fuelExhausted, ex.vs, ex.pc, ex.ck, none, ex.tr⟩

/-- `create_vector_store`, `vector_store.py` lines 26-180, as a function of
the call arguments, the pre-existing checkpoint-file content `fsCk` at the
derived checkpoint path, and the event oracle.  Hard-coded constants as in
the source: `max_chars = 2000` (line 47), `batch_size = 50` (line 64).
With no `persist_path`, `checkpoint_file` is `None`: no checkpoint is
loaded, saved or deleted and the final index is not persisted.  With a
`persist_path`, a present checkpoint is unpickled (lines 80-93; a corrupt
one is caught and treated as absent, resuming from zero), and the loop runs
from the loaded `processed_count`. -/
def create_vector_store (docs : List Document) (persist_path : Option (List String))
    (timeout_minutes : Nat) (max_docs : Option Nat) (fsCk : Option CkBlob)
    (orc : Oracle) : BuildOutcome :=
  let truncated_docs := preprocess 2000 (limitDocs max_docs docs)
  let timeout_seconds := timeout_minutes * 60
  match persist_path with
  | none => runNoCk orc truncated_docs timeout_seconds fsCk
  | some _ =>
    match fsCk with
    | some (CkBlob.valid l q) =>
      runWithCk orc truncated_docs timeout_seconds (some l) q fsCk [Ev.loadCk true]
    | some CkBlob.corrupt =>
      runWithCk orc truncated_docs timeout_seconds none 0 fsCk [Ev.loadCk false]
    | none => runWithCk orc truncated_docs timeout_seconds none 0 fsCk []

/-- Invariant step: inserting the batch `truncated_docs[i:i+50]` into a
store holding the first `i` documents yields the first `i + 50` documents
(clamped at the end of the list). -/
theorem insertBatch_take (tds : List Document) (i : Nat)
    (vs : Option (List Document))
    (hinv : vs = some (tds.take i) ∨ vs = none ∧ i = 0) :
    insertBatch vs ((tds.drop i).take 50) = tds.take (i + 50) := by
  rcases hinv with h | ⟨h, hz⟩
  · subst h
    simp [insertBatch, ← List.take_add]
  · subst h
    subst hz
    simp [insertBatch]



/-- Step equation: past the end of the list the loop exits normally. -/
theorem buildLoop_stop (orc : Oracle) (tds : List Document) (ts : Nat)
    (hasCk : Bool) (fuel i : Nat) (vs : Option (List Document)) (pc : Nat)
    (ck : Option CkBlob) (tr : List Ev) (hi : ¬ i < tds.length) :
    buildLoop orc tds ts hasCk (fuel + 1) i vs pc ck tr =
      ⟨LoopRes.completed, vs, pc, ck, tr⟩ := by
  simp only [buildLoop, if_neg hi]

/-- Step equation: a deadline check that fires exits with the state
unchanged. -/
theorem buildLoop_timeout_step (orc : Oracle) (tds : List Document) (ts : Nat)
    (hasCk : Bool) (fuel i : Nat) (vs : Option (List Document)) (pc : Nat)
    (ck : Option CkBlob) (tr : List Ev) (hi : i < tds.length)
    (ht : orc.elapsed i > ts) :
    buildLoop orc tds ts hasCk (fuel + 1) i vs pc ck tr =
      ⟨LoopRes.timedOut, vs, pc, ck, tr⟩ := by
  simp only [buildLoop, if_pos hi, if_pos ht]

/-- Step equation: a failing insertion exits through the handler. -/
theorem buildLoop_fail_step (orc : Oracle) (tds : List Document) (ts : Nat)
    (hasCk : Bool) (fuel i : Nat) (vs : Option (List Document)) (pc : Nat)
    (ck : Option CkBlob) (tr : List Ev) (hi : i < tds.length)
    (ht : ¬ orc.elapsed i > ts) (hf : orc.insertFails i = true) :
    buildLoop orc tds ts hasCk (fuel + 1) i vs pc ck tr =
      (match hasCk, vs with
       | true, some l =>
         (match orc.saveFails i with
          | true => ⟨LoopRes.failed i, vs, pc, ck, tr ++ [Ev.saveCk pc false]⟩
          | false => (⟨LoopRes.failed i, vs, pc, some (CkBlob.valid l pc),
              tr ++ [Ev.saveCk pc true]⟩ : LoopExit))
       | _, _ => ⟨LoopRes.failed i, vs, pc, ck, tr⟩) := by
  simp only [buildLoop, if_pos hi, if_neg ht, hf]

/-- Step equation: a successful insertion recurses with the grown store,
after the post-batch best-effort checkpoint save. -/
theorem buildLoop_ok_step (orc : Oracle) (tds : List Document) (ts : Nat)
    (hasCk : Bool) (fuel i : Nat) (vs : Option (List Document)) (pc : Nat)
    (ck : Option CkBlob) (tr : List Ev) (hi : i < tds.length)
    (ht : ¬ orc.elapsed i > ts) (hf : orc.insertFails i = false) :
    buildLoop orc tds ts hasCk (fuel + 1) i vs pc ck tr =
      (match hasCk with
       | true =>
         (match orc.saveFails i with
          | true => buildLoop orc tds ts hasCk fuel (i + 50)
              (some (insertBatch vs ((tds.drop i).take 50)))
              (i + ((tds.drop i).take 50).length) ck
              (tr ++ [Ev.saveCk (i + ((tds.drop i).take 50).length) false])
          | false => buildLoop orc tds ts hasCk fuel (i + 50)
              (some (insertBatch vs ((tds.drop i).take 50)))
              (i + ((tds.drop i).take 50).length)
              (some (CkBlob.valid (insertBatch vs ((tds.drop i).take 50))
                (i + ((tds.drop i).take 50).length)))
              (tr ++ [Ev.saveCk (i + ((tds.drop i).take 50).length) true]))
       | false => buildLoop orc tds ts hasCk fuel (i + 50)
           (some (insertBatch vs ((tds.drop i).take 50)))
           (i + ((tds.drop i).take 50).length) ck tr) := by
  simp only [buildLoop, if_pos hi, if_neg ht, hf]

/-- Completion lemma for the batch loop: if no deadline check fires and no
insertion fails, a loop started at offset `i` with a store holding the
first `i` preprocessed documents (or no store at offset 0) runs to
completion, ends with the whole preprocessed list in the store and
`processed_count` equal to its length, and — when checkpoint saves are
enabled and none fails — leaves the checkpoint holding the full contents. -/
theorem buildLoop_completes (orc : Oracle) (tds : List Document) (ts : Nat)
    (hasCk : Bool) (hnt : ∀ i, orc.elapsed i ≤ ts)
    (hnf : ∀ i, orc.insertFails i = false) :
    ∀ fuel i vs pc ck tr, tds.length - i < fuel →
      vs = some (tds.take i) ∨ vs = none ∧ i = 0 →
      (buildLoop orc tds ts hasCk fuel i vs pc ck tr).res = LoopRes.completed ∧
      (buildLoop orc tds ts hasCk fuel i vs pc ck tr).pc =
        (if i < tds.length then tds.length else pc) ∧
      (buildLoop orc tds ts hasCk fuel i vs pc ck tr).vs =
        (if i < tds.length then some tds else vs) ∧
      ((∀ j, orc.saveFails j = false) → hasCk = true →
        (buildLoop orc tds ts hasCk fuel i vs pc ck tr).ck =
          (if i < tds.length then some (CkBlob.valid tds tds.length) else ck)) := by
  intro fuel
  induction fuel with
  | zero =>
      intro i vs pc ck tr hfuel hinv
      omega
  | succ fuel ih =>
      intro i vs pc ck tr hfuel hinv
      by_cases hi : i < tds.length
      · have hne : ¬ orc.elapsed i > ts := by
          have := hnt i; omega
        have hbl : ((tds.drop i).take 50).length = min 50 (tds.length - i) := by
          simp [List.length_take, List.length_drop]
        have hvs' : insertBatch vs ((tds.drop i).take 50) = tds.take (i + 50) :=
          insertBatch_take tds i vs hinv
        have hfuel' : tds.length - (i + 50) < fuel := by omega
        have htk : ¬ i + 50 < tds.length → tds.take (i + 50) = tds := by
          intro h50
          exact List.take_of_length_le (by omega)
        have hpc' : (if i + 50 < tds.length then tds.length
            else i + ((tds.drop i).take 50).length) = tds.length := by
          by_cases h50 : i + 50 < tds.length
          · rw [if_pos h50]
          · rw [if_neg h50, hbl]
            omega
        have hvs50 : (if i + 50 < tds.length then some tds
            else some (tds.take (i + 50))) = some tds := by
          by_cases h50 : i + 50 < tds.length
          · rw [if_pos h50]
          · rw [if_neg h50, htk h50]
        have hck50 : (if i + 50 < tds.length then some (CkBlob.valid tds tds.length)
            else some (CkBlob.valid (tds.take (i + 50))
              (i + ((tds.drop i).take 50).length)))
            = some (CkBlob.valid tds tds.length) := by
          by_cases h50 : i + 50 < tds.length
          · rw [if_pos h50]
          · have harith : i + ((tds.drop i).take 50).length = tds.length := by
              rw [hbl]; omega
            rw [if_neg h50, htk h50, harith]
        have tail := fun ck' tr' =>
          ih (i + 50) (some (tds.take (i + 50))) (i + ((tds.drop i).take 50).length)
            ck' tr' hfuel' (Or.inl rfl)
        rw [buildLoop_ok_step orc tds ts hasCk fuel i vs pc ck tr hi hne (hnf i),
          hvs']
        cases hasCk with
        | false =>
            obtain ⟨h1, h2, h3, _⟩ := tail ck tr
            refine ⟨h1, ?_, ?_, ?_⟩
            · rw [h2, hpc', if_pos hi]
            · rw [h3, hvs50, if_pos hi]
            · intro _ htrue
              exact absurd htrue Bool.false_ne_true
        | true =>
            cases hsf : orc.saveFails i with
            | true =>
                obtain ⟨h1, h2, h3, _⟩ := tail ck
                  (tr ++ [Ev.saveCk (i + ((tds.drop i).take 50).length) false])
                refine ⟨h1, ?_, ?_, ?_⟩
                · rw [h2, hpc', if_pos hi]
                · rw [h3, hvs50, if_pos hi]
                · intro hnsf _
                  exact absurd (hnsf i) (by simp [hsf])
            | false =>
                obtain ⟨h1, h2, h3, h4⟩ := tail
                  (some (CkBlob.valid (tds.take (i + 50))
                    (i + ((tds.drop i).take 50).length)))
                  (tr ++ [Ev.saveCk (i + ((tds.drop i).take 50).length) true])
                refine ⟨h1, ?_, ?_, ?_⟩
                · rw [h2, hpc', if_pos hi]
                · rw [h3, hvs50, if_pos hi]
                · intro hnsf htrue
                  rw [h4 hnsf htrue, hck50, if_pos hi]
      · rw [buildLoop_stop orc tds ts hasCk fuel i vs pc ck tr hi]
        exact ⟨rfl, by rw [if_neg hi], by rw [if_neg hi],
          fun _ _ => by rw [if_neg hi]⟩

/-- The loop's control flow, store and processed count never depend on the
checkpoint-file state or on the trace accumulated so far (the loop only
writes to them). -/
theorem buildLoop_state_indep (orc : Oracle) (tds : List Document) (ts : Nat)
    (hasCk : Bool) :
    ∀ fuel i vs pc ck ck' tr tr',
      (buildLoop orc tds ts hasCk fuel i vs pc ck tr).res =
        (buildLoop orc tds ts hasCk fuel i vs pc ck' tr').res ∧
      (buildLoop orc tds ts hasCk fuel i vs pc ck tr).vs =
        (buildLoop orc tds ts hasCk fuel i vs pc ck' tr').vs ∧
      (buildLoop orc tds ts hasCk fuel i vs pc ck tr).pc =
        (buildLoop orc tds ts hasCk fuel i vs pc ck' tr').pc := by
  intro fuel
  induction fuel with
  | zero =>
      intro i vs pc ck ck' tr tr'
      exact ⟨rfl, rfl, rfl⟩
  | succ fuel ih =>
      intro i vs pc ck ck' tr tr'
      by_cases hi : i < tds.length
      · by_cases ht : orc.elapsed i > ts
        · rw [buildLoop_timeout_step orc tds ts hasCk fuel i vs pc ck tr hi ht,
            buildLoop_timeout_step orc tds ts hasCk fuel i vs pc ck' tr' hi ht]
          exact ⟨rfl, rfl, rfl⟩
        · cases hf : orc.insertFails i with
          | true =>
              rw [buildLoop_fail_step orc tds ts hasCk fuel i vs pc ck tr hi ht hf,
                buildLoop_fail_step orc tds ts hasCk fuel i vs pc ck' tr' hi ht hf]
              cases hasCk with
              | false => exact ⟨rfl, rfl, rfl⟩
              | true =>
                  cases vs with
                  | none => exact ⟨rfl, rfl, rfl⟩
                  | some l =>
                      cases orc.saveFails i with
                      | true => exact ⟨rfl, rfl, rfl⟩
                      | false => exact ⟨rfl, rfl, rfl⟩
          | false =>
              rw [buildLoop_ok_step orc tds ts hasCk fuel i vs pc ck tr hi ht hf,
                buildLoop_ok_step orc tds ts hasCk fuel i vs pc ck' tr' hi ht hf]
              cases hasCk with
              | false => exact ih (i + 50) _ _ ck ck' tr tr'
              | true =>
                  cases orc.saveFails i with
                  | true => exact ih (i + 50) _ _ ck ck' _ _
                  | false => exact ih (i + 50) _ _ _ _ _ _
      · rw [buildLoop_stop orc tds ts hasCk fuel i vs pc ck tr hi,
          buildLoop_stop orc tds ts hasCk fuel i vs pc ck' tr' hi]
        exact ⟨rfl, rfl, rfl⟩

/-- With no persist path (`hasCk = false`) the loop performs no checkpoint
operation at all: the checkpoint-file state and the trace are returned
untouched. -/
theorem buildLoop_noCk (orc : Oracle) (tds : List Document) (ts : Nat) :
    ∀ fuel i vs pc ck tr,
      (buildLoop orc tds ts false fuel i vs pc ck tr).ck = ck ∧
      (buildLoop orc tds ts false fuel i vs pc ck tr).tr = tr := by
  intro fuel
  induction fuel with
  | zero =>
      intro i vs pc ck tr
      exact ⟨rfl, rfl⟩
  | succ fuel ih =>
      intro i vs pc ck tr
      by_cases hi : i < tds.length
      · by_cases ht : orc.elapsed i > ts
        · rw [buildLoop_timeout_step orc tds ts false fuel i vs pc ck tr hi ht]
          exact ⟨rfl, rfl⟩
        · cases hf : orc.insertFails i with
          | true =>
              rw [buildLoop_fail_step orc tds ts false fuel i vs pc ck tr hi ht hf]
              exact ⟨rfl, rfl⟩
          | false =>
              rw [buildLoop_ok_step orc tds ts false fuel i vs pc ck tr hi ht hf]
              exact ih (i + 50) _ _ ck tr
      · rw [buildLoop_stop orc tds ts false fuel i vs pc ck tr hi]
        exact ⟨rfl, rfl⟩

/-- `comesBefore a b tr` holds when some occurrence of `a` strictly
precedes some occurrence of `b` in the trace `tr`. -/
def comesBefore (a b : Ev) : List Ev → Bool
  | [] => false
  | x :: xs => (x == a && xs.contains b) || comesBefore a b xs

/-- A trace ending in `[a, b]` exhibits `a` before `b`. -/
theorem comesBefore_append_pair (a b : Ev) (l : List Ev) :
    comesBefore a b ((l ++ [a]) ++ [b]) = true := by
  induction l with
  | nil =>
      show ((a == a && ([] ++ [b] : List Ev).contains b) || comesBefore a b ([] ++ [b])) = true
      simp
  | cons x xs ih =>
      show ((x == a && ((xs ++ [a]) ++ [b]).contains b) ||
        comesBefore a b ((xs ++ [a]) ++ [b])) = true
      rw [ih, Bool.or_true]

/-- Limiting a nonempty document list leaves it nonempty. -/
theorem limitDocs_pos (md : Option Nat) (docs : List Document)
    (h : docs ≠ []) : 0 < (limitDocs md docs).length := by
  have hd : 0 < docs.length := List.length_pos.mpr h
  cases md with
  | none => exact hd
  | some m =>
      by_cases hc : m ≠ 0 ∧ docs.length > m
      · simp only [limitDocs, if_pos hc, List.length_take]
        omega
      · simp only [limitDocs, if_neg hc]
        exact hd

/-- A good run (no deadline hit, no insertion failure) of the loop plus
completion path, starting from a coherent resume state, succeeds: full
contents in the store and persisted, `processed_count` equal to the number
of preprocessed documents, no checkpoint left behind, and — when saves also
succeed and at least one batch actually runs — the trace shows the
checkpoint deletion strictly before the final persistence. -/
theorem runWithCk_good (orc : Oracle) (tds : List Document) (ts : Nat)
    (vs0 : Option (List Document)) (pc0 : Nat) (fsCk : Option CkBlob)
    (tr0 : List Ev) (hnt : ∀ i, orc.elapsed i ≤ ts)
    (hnf : ∀ i, orc.insertFails i = false)
    (hinv : vs0 = some (tds.take pc0) ∨ vs0 = none ∧ pc0 = 0)
    (hq : pc0 ≤ tds.length) (hn : 0 < tds.length) :
    (runWithCk orc tds ts vs0 pc0 fsCk tr0).result = BResult.ok ∧
    (runWithCk orc tds ts vs0 pc0 fsCk tr0).vs = some tds ∧
    (runWithCk orc tds ts vs0 pc0 fsCk tr0).pc = tds.length ∧
    (runWithCk orc tds ts vs0 pc0 fsCk tr0).ck = none ∧
    (runWithCk orc tds ts vs0 pc0 fsCk tr0).persisted = some tds ∧
    ((∀ j, orc.saveFails j = false) → pc0 < tds.length →
      comesBefore Ev.deleteCk Ev.persistIdx
        (runWithCk orc tds ts vs0 pc0 fsCk tr0).trace = true) := by
  obtain ⟨h1, h2, h3, h4⟩ := buildLoop_completes orc tds ts true hnt hnf
    (tds.length + 1) pc0 vs0 pc0 fsCk tr0 (by omega) hinv
  have hvsend : (buildLoop orc tds ts true (tds.length + 1) pc0 vs0 pc0 fsCk tr0).vs
      = some tds := by
    rw [h3]
    by_cases hlt : pc0 < tds.length
    · rw [if_pos hlt]
    · rw [if_neg hlt]
      rcases hinv with hv | ⟨hv, hz⟩
      · rw [hv]
        have hpe : pc0 = tds.length := by omega
        rw [hpe, List.take_length]
      · omega
  have hpcend : (buildLoop orc tds ts true (tds.length + 1) pc0 vs0 pc0 fsCk tr0).pc
      = tds.length := by
    rw [h2]
    by_cases hlt : pc0 < tds.length
    · rw [if_pos hlt]
    · rw [if_neg hlt]
      omega
  cases hck : (buildLoop orc tds ts true (tds.length + 1) pc0 vs0 pc0 fsCk tr0).ck with
  | none =>
      have hrun : runWithCk orc tds ts vs0 pc0 fsCk tr0 =
          ⟨BResult.ok, some tds, tds.length, none, some tds,
            (buildLoop orc tds ts true (tds.length + 1) pc0 vs0 pc0 fsCk tr0).tr
              ++ [Ev.persistIdx]⟩ := by
        simp only [runWithCk, h1, hvsend, hpcend, hck]
      rw [hrun]
      refine ⟨rfl, rfl, rfl, rfl, rfl, ?_⟩
      intro hnsf hlt
      have hc := h4 hnsf rfl
      rw [if_pos hlt, hck] at hc
      exact absurd hc (by simp)
  | some blob =>
      have hrun : runWithCk orc tds ts vs0 pc0 fsCk tr0 =
          ⟨BResult.ok, some tds, tds.length, none, some tds,
            ((buildLoop orc tds ts true (tds.length + 1) pc0 vs0 pc0 fsCk tr0).tr
              ++ [Ev.deleteCk]) ++ [Ev.persistIdx]⟩ := by
        simp only [runWithCk, h1, hvsend, hpcend, hck]
      rw [hrun]
      refine ⟨rfl, rfl, rfl, rfl, rfl, ?_⟩
      intro hnsf hlt
      exact comesBefore_append_pair Ev.deleteCk Ev.persistIdx _

/-- With no persist path the build's trace is empty: no checkpoint is
loaded, saved or deleted and nothing is persisted. -/
theorem runNoCk_trace (orc : Oracle) (tds : List Document) (ts : Nat)
    (f : Option CkBlob) :
    (runNoCk orc tds ts f).trace =
      (buildLoop orc tds ts false (tds.length + 1) 0 none 0 f []).tr := by
  simp only [runNoCk]
  cases (buildLoop orc tds ts false (tds.length + 1) 0 none 0 f []).res <;> rfl

/-- With no persist path the checkpoint-file state is passed through. -/
theorem runNoCk_ck (orc : Oracle) (tds : List Document) (ts : Nat)
    (f : Option CkBlob) :
    (runNoCk orc tds ts f).ck =
      (buildLoop orc tds ts false (tds.length + 1) 0 none 0 f []).ck := by
  simp only [runNoCk]
  cases (buildLoop orc tds ts false (tds.length + 1) 0 none 0 f []).res <;> rfl

/-- With no persist path nothing is written to disk. -/
theorem runNoCk_persisted (orc : Oracle) (tds : List Document) (ts : Nat)
    (f : Option CkBlob) : (runNoCk orc tds ts f).persisted = none := by
  simp only [runNoCk]
  cases (buildLoop orc tds ts false (tds.length + 1) 0 none 0 f []).res <;> rfl

/-- With no persist path the store contents are those left by the loop. -/
theorem runNoCk_vs (orc : Oracle) (tds : List Document) (ts : Nat)
    (f : Option CkBlob) :
    (runNoCk orc tds ts f).vs =
      (buildLoop orc tds ts false (tds.length + 1) 0 none 0 f []).vs := by
  simp only [runNoCk]
  cases (buildLoop orc tds ts false (tds.length + 1) 0 none 0 f []).res <;> rfl

/-- With no persist path the processed count is that left by the loop. -/
theorem runNoCk_pc (orc : Oracle) (tds : List Document) (ts : Nat)
    (f : Option CkBlob) :
    (runNoCk orc tds ts f).pc =
      (buildLoop orc tds ts false (tds.length + 1) 0 none 0 f []).pc := by
  simp only [runNoCk]
  cases (buildLoop orc tds ts false (tds.length + 1) 0 none 0 f []).res <;> rfl

/-- The result kind only depends on how the loop exited, which is
independent of the initial checkpoint-file state. -/
theorem runNoCk_result_indep (orc : Oracle) (tds : List Document) (ts : Nat)
    (f f' : Option CkBlob) :
    (runNoCk orc tds ts f).result = (runNoCk orc tds ts f').result := by
  obtain ⟨hres, _, _⟩ := buildLoop_state_indep orc tds ts false
    (tds.length + 1) 0 none 0 f f' [] []
  simp only [runNoCk, hres]
  cases (buildLoop orc tds ts false (tds.length + 1) 0 none 0 f' []).res <;> rfl

/-- An oracle for a trouble-free run: zero elapsed time at every check, no
insertion failures, no checkpoint-save failures. -/
def goodOracle : Oracle := ⟨fun _ => 0, fun _ => false, fun _ => false⟩

/-- C1: resume is idempotent.  A build re-invoked over the same documents
and destination after an interruption that left the checkpoint holding the
state after batch `k` (store contents = first `min (50 * k) n` preprocessed
documents, `processed_count` the same number; `k ≥ 1` since the source only
creates a checkpoint after the first successful batch) produces the same
store contents and the same final `processed_count` as one uninterrupted
build, both runs succeeding, provided neither run hits the deadline or an
insertion failure. -/
theorem claim_C1_idempotent_resume (docs : List Document) (p : List String)
    (t : Nat) (md : Option Nat) (orc orc2 : Oracle) (k : Nat)
    (_hk : 0 < k)
    (hbatch : 50 * (k - 1) < (preprocess 2000 (limitDocs md docs)).length)
    (hnt : ∀ i, orc.elapsed i ≤ t * 60)
    (hnf : ∀ i, orc.insertFails i = false)
    (hnt2 : ∀ i, orc2.elapsed i ≤ t * 60)
    (hnf2 : ∀ i, orc2.insertFails i = false) :
    let tds := preprocess 2000 (limitDocs md docs)
    let q := min (50 * k) tds.length
    let resumed := create_vector_store docs (some p) t md
      (some (CkBlob.valid (tds.take q) q)) orc2
    let fresh := create_vector_store docs (some p) t md none orc
    resumed.result = BResult.ok ∧ fresh.result = BResult.ok ∧
    resumed.vs = fresh.vs ∧ resumed.pc = fresh.pc := by
  intro tds q resumed fresh
  have hn : 0 < tds.length := Nat.lt_of_le_of_lt (Nat.zero_le _) hbatch
  have hq : q ≤ tds.length := min_le_right _ _
  have hres : resumed = runWithCk orc2 tds (t * 60) (some (tds.take q)) q
      (some (CkBlob.valid (tds.take q) q)) [Ev.loadCk true] := rfl
  have hfre : fresh = runWithCk orc tds (t * 60) none 0 none [] := rfl
  obtain ⟨r1, r2, r3, _, _, _⟩ := runWithCk_good orc2 tds (t * 60)
    (some (tds.take q)) q (some (CkBlob.valid (tds.take q) q)) [Ev.loadCk true]
    hnt2 hnf2 (Or.inl rfl) hq hn
  obtain ⟨f1, f2, f3, _, _, _⟩ := runWithCk_good orc tds (t * 60) none 0 none []
    hnt hnf (Or.inr ⟨rfl, rfl⟩) (Nat.zero_le _) hn
  rw [hres, hfre]
  exact ⟨r1, f1, by rw [r2, f2], by rw [r3, f3]⟩

/-- C1 witness: one document, `k = 1`, default-free parameters; both the
resumed and the uninterrupted build succeed with equal contents and count. -/
theorem claim_C1_witness :
    let tds := preprocess 2000 (limitDocs none
      [({ page_content := ['a'], metadata := [] } : Document)])
    let q := min (50 * 1) tds.length
    let resumed := create_vector_store
      [({ page_content := ['a'], metadata := [] } : Document)] (some ["idx"]) 1
      none (some (CkBlob.valid (tds.take q) q)) goodOracle
    let fresh := create_vector_store
      [({ page_content := ['a'], metadata := [] } : Document)] (some ["idx"]) 1
      none none goodOracle
    resumed.result = BResult.ok ∧ fresh.result = BResult.ok ∧
    resumed.vs = fresh.vs ∧ resumed.pc = fresh.pc :=
  claim_C1_idempotent_resume
    [({ page_content := ['a'], metadata := [] } : Document)] ["idx"] 1 none
    goodOracle goodOracle 1 (by decide) (by decide)
    (fun _ => Nat.zero_le _) (fun _ => rfl)
    (fun _ => Nat.zero_le _) (fun _ => rfl)

/-- C9: a `max_docs` of `0` is falsy in the guard
`if max_docs and len(docs) > max_docs:`, so it disables the limit entirely;
the whole observable outcome coincides with that of `max_docs = None`. -/
theorem claim_C9_max_docs_zero (docs : List Document)
    (p : Option (List String)) (t : Nat) (fsCk : Option CkBlob)
    (orc : Oracle) :
    create_vector_store docs p t (some 0) fsCk orc =
      create_vector_store docs p t none fsCk orc := by
  have h : limitDocs (some 0) docs = limitDocs none docs := by
    simp [limitDocs]
  simp only [create_vector_store, h]

/-- C10: with no persist path no checkpoint operation occurs at all — the
trace is empty, the checkpoint location is untouched, nothing is persisted,
and the run's result, store contents and processed count are independent of
whatever checkpoint file might exist (in particular the resume offset is 0). -/
theorem claim_C10_no_persist_frame (docs : List Document) (t : Nat)
    (md : Option Nat) (fsCk : Option CkBlob) (orc : Oracle) :
    (create_vector_store docs none t md fsCk orc).trace = [] ∧
    (create_vector_store docs none t md fsCk orc).ck = fsCk ∧
    (create_vector_store docs none t md fsCk orc).persisted = none ∧
    (create_vector_store docs none t md fsCk orc).result =
      (create_vector_store docs none t md none orc).result ∧
    (create_vector_store docs none t md fsCk orc).vs =
      (create_vector_store docs none t md none orc).vs ∧
    (create_vector_store docs none t md fsCk orc).pc =
      (create_vector_store docs none t md none orc).pc := by
  have e1 : create_vector_store docs none t md fsCk orc =
      runNoCk orc (preprocess 2000 (limitDocs md docs)) (t * 60) fsCk := rfl
  have e2 : create_vector_store docs none t md none orc =
      runNoCk orc (preprocess 2000 (limitDocs md docs)) (t * 60) none := rfl
  obtain ⟨hck1, htr1⟩ := buildLoop_noCk orc (preprocess 2000 (limitDocs md docs))
    (t * 60) ((preprocess 2000 (limitDocs md docs)).length + 1) 0 none 0 fsCk []
  obtain ⟨_, hvs, hpc⟩ := buildLoop_state_indep orc
    (preprocess 2000 (limitDocs md docs)) (t * 60) false
    ((preprocess 2000 (limitDocs md docs)).length + 1) 0 none 0 fsCk none [] []
  refine ⟨?_, ?_, ?_, ?_, ?_, ?_⟩
  · rw [e1, runNoCk_trace]
    exact htr1
  · rw [e1, runNoCk_ck]
    exact hck1
  · rw [e1, runNoCk_persisted]
  · rw [e1, e2]
    exact runNoCk_result_indep orc (preprocess 2000 (limitDocs md docs))
      (t * 60) fsCk none
  · rw [e1, e2, runNoCk_vs, runNoCk_vs]
    exact hvs
  · rw [e1, e2, runNoCk_pc, runNoCk_pc]
    exact hpc

/-- The store contents returned by the build are exactly those the loop
left (on the empty-store completion path the source raises before
returning, leaving `None`). -/
theorem runWithCk_vs_eq (orc : Oracle) (tds : List Document) (ts : Nat)
    (vs0 : Option (List Document)) (pc0 : Nat) (f : Option CkBlob)
    (tr : List Ev) :
    (runWithCk orc tds ts vs0 pc0 f tr).vs =
      (buildLoop orc tds ts true (tds.length + 1) pc0 vs0 pc0 f tr).vs := by
  simp only [runWithCk]
  cases (buildLoop orc tds ts true (tds.length + 1) pc0 vs0 pc0 f tr).res with
  | completed =>
      cases (buildLoop orc tds ts true (tds.length + 1) pc0 vs0 pc0 f tr).vs <;> rfl
  | timedOut => rfl
  | failed i => rfl
  | outOfFuel => rfl

/-- The processed count returned by the build is the one the loop left. -/
theorem runWithCk_pc_eq (orc : Oracle) (tds : List Document) (ts : Nat)
    (vs0 : Option (List Document)) (pc0 : Nat) (f : Option CkBlob)
    (tr : List Ev) :
    (runWithCk orc tds ts vs0 pc0 f tr).pc =
      (buildLoop orc tds ts true (tds.length + 1) pc0 vs0 pc0 f tr).pc := by
  simp only [runWithCk]
  cases (buildLoop orc tds ts true (tds.length + 1) pc0 vs0 pc0 f tr).res with
  | completed =>
      cases (buildLoop orc tds ts true (tds.length + 1) pc0 vs0 pc0 f tr).vs <;> rfl
  | timedOut => rfl
  | failed i => rfl
  | outOfFuel => rfl

/-- The result kind is a function of how the loop exited and whether the
store exists at the end. -/
theorem runWithCk_result_eq (orc : Oracle) (tds : List Document) (ts : Nat)
    (vs0 : Option (List Document)) (pc0 : Nat) (f : Option CkBlob)
    (tr : List Ev) :
    (runWithCk orc tds ts vs0 pc0 f tr).result =
      (match (buildLoop orc tds ts true (tds.length + 1) pc0 vs0 pc0 f tr).res,
          (buildLoop orc tds ts true (tds.length + 1) pc0 vs0 pc0 f tr).vs with
       | LoopRes.completed, some _ => BResult.ok
       | LoopRes.completed, none => BResult.persistFailed
       | LoopRes.timedOut, _ => BResult.timeout
       | LoopRes.failed i, _ => BResult.batchFailed i
       | LoopRes.outOfFuel, _ => BResult.fuelExhausted) := by
  simp only [runWithCk]
  cases (buildLoop orc tds ts true (tds.length + 1) pc0 vs0 pc0 f tr).res with
  | completed =>
      cases (buildLoop orc tds ts true (tds.length + 1) pc0 vs0 pc0 f tr).vs <;> rfl
  | timedOut => rfl
  | failed i => rfl
  | outOfFuel => rfl

/-- A loop exit by timeout propagates unchanged through the outer handler
(`vector_store.py` lines 176-180 only log and re-raise): in particular the
checkpoint file is exactly as the loop left it and nothing is persisted. -/
theorem runWithCk_timeout_eq (orc : Oracle) (tds : List Document) (ts : Nat)
    (vs0 : Option (List Document)) (pc0 : Nat) (f : Option CkBlob)
    (tr : List Ev)
    (h : (buildLoop orc tds ts true (tds.length + 1) pc0 vs0 pc0 f tr).res =
      LoopRes.timedOut) :
    runWithCk orc tds ts vs0 pc0 f tr =
      ⟨BResult.timeout,
        (buildLoop orc tds ts true (tds.length + 1) pc0 vs0 pc0 f tr).vs,
        (buildLoop orc tds ts true (tds.length + 1) pc0 vs0 pc0 f tr).pc,
        (buildLoop orc tds ts true (tds.length + 1) pc0 vs0 pc0 f tr).ck,
        none,
        (buildLoop orc tds ts true (tds.length + 1) pc0 vs0 pc0 f tr).tr⟩ := by
  simp only [runWithCk, h]

/-- A loop exit by insertion failure propagates unchanged through the outer
handler: checkpoint file as the loop (and its best-effort save) left it,
nothing persisted. -/
theorem runWithCk_failed_eq (orc : Oracle) (tds : List Document) (ts : Nat)
    (vs0 : Option (List Document)) (pc0 : Nat) (f : Option CkBlob)
    (tr : List Ev) (i : Nat)
    (h : (buildLoop orc tds ts true (tds.length + 1) pc0 vs0 pc0 f tr).res =
      LoopRes.failed i) :
    runWithCk orc tds ts vs0 pc0 f tr =
      ⟨BResult.batchFailed i,
        (buildLoop orc tds ts true (tds.length + 1) pc0 vs0 pc0 f tr).vs,
        (buildLoop orc tds ts true (tds.length + 1) pc0 vs0 pc0 f tr).pc,
        (buildLoop orc tds ts true (tds.length + 1) pc0 vs0 pc0 f tr).ck,
        none,
        (buildLoop orc tds ts true (tds.length + 1) pc0 vs0 pc0 f tr).tr⟩ := by
  simp only [runWithCk, h]

/-- C2 amended: the save at `vector_store.py` lines 130-131 writes the
checkpoint file in place (truncating `open` followed by sequential writes,
no temporary file and no atomic rename), so a crash during a save leaves
either the previous file content (crash before the `open`) or some prefix
of the new pickle bytes — possibly empty, possibly a proper half-written
prefix.  The loader (lines 80-93) however catches any unpickling failure
and treats such a corrupt checkpoint exactly like an absent one, so the
build's result, store contents and processed count after loading a corrupt
checkpoint equal those of a build that found no checkpoint. -/
theorem claim_C2_amended_crash_prefix :
    (∀ (prev : Option (List Nat)) (data : List Nat) (j : Nat),
      save_crash_state prev data j = prev ∨
      ∃ k, k ≤ data.length ∧ save_crash_state prev data j = some (data.take k)) ∧
    (∀ (docs : List Document) (p : List String) (t : Nat) (md : Option Nat)
      (orc : Oracle),
      (create_vector_store docs (some p) t md (some CkBlob.corrupt) orc).result =
        (create_vector_store docs (some p) t md none orc).result ∧
      (create_vector_store docs (some p) t md (some CkBlob.corrupt) orc).vs =
        (create_vector_store docs (some p) t md none orc).vs ∧
      (create_vector_store docs (some p) t md (some CkBlob.corrupt) orc).pc =
        (create_vector_store docs (some p) t md none orc).pc) := by
  constructor
  · intro prev data j
    cases j with
    | zero => exact Or.inl rfl
    | succ k =>
        right
        by_cases hk : k ≤ data.length
        · exact ⟨k, hk, rfl⟩
        · refine ⟨data.length, le_refl _, ?_⟩
          show some (data.take k) = some (data.take data.length)
          rw [List.take_length, List.take_of_length_le (by omega)]
  · intro docs p t md orc
    have e1 : create_vector_store docs (some p) t md (some CkBlob.corrupt) orc =
        runWithCk orc (preprocess 2000 (limitDocs md docs)) (t * 60) none 0
          (some CkBlob.corrupt) [Ev.loadCk false] := rfl
    have e2 : create_vector_store docs (some p) t md none orc =
        runWithCk orc (preprocess 2000 (limitDocs md docs)) (t * 60) none 0
          none [] := rfl
    obtain ⟨hres, hvs, hpc⟩ := buildLoop_state_indep orc
      (preprocess 2000 (limitDocs md docs)) (t * 60) true
      ((preprocess 2000 (limitDocs md docs)).length + 1) 0 none 0
      (some CkBlob.corrupt) none [Ev.loadCk false] []
    rw [e1, e2]
    refine ⟨?_, ?_, ?_⟩
    · rw [runWithCk_result_eq, runWithCk_result_eq, hres, hvs]
    · rw [runWithCk_vs_eq, runWithCk_vs_eq, hvs]
    · rw [runWithCk_pc_eq, runWithCk_pc_eq, hpc]

/-- C3 counterexample: the derived checkpoint location depends only on the
destination's parent directory, so the two distinct destinations
`a/x` and `a/y` share one checkpoint location — key derivation is not
injective on destinations. -/
theorem claim_C3_counterexample :
    (["a", "x"] : List String) ≠ ["a", "y"] ∧
    checkpoint_file ["a", "x"] = checkpoint_file ["a", "y"] := by
  constructor
  · decide
  · rfl

/-- C3 amended: the checkpoint location is injective only in the
destination's parent directory — two destinations whose parent directories
differ derive distinct checkpoint locations (while two destinations in the
same directory collide, as the counterexample shows). -/
theorem claim_C3_amended_parent_injective (p q : List String)
    (h : p.dropLast ≠ q.dropLast) :
    checkpoint_file p ≠ checkpoint_file q := by
  intro he
  exact h (List.append_cancel_right he)

/-- C3 witness: destinations in different directories get different
checkpoint locations. -/
theorem claim_C3_witness :
    (["a", "x"] : List String).dropLast ≠ (["b", "x"] : List String).dropLast ∧
    checkpoint_file ["a", "x"] ≠ checkpoint_file ["b", "x"] :=
  ⟨by decide, claim_C3_amended_parent_injective ["a", "x"] ["b", "x"] (by decide)⟩

/-- C4: preprocessing preserves length and order (`preprocess` is an
index-wise map); a document longer than `max_chars` is truncated to its
first `max_chars` characters plus the fixed marker — so its output length
is at most `max_chars + marker.length` — and its metadata gains
`truncated = True` and `original_length = <original length>`; a document
within the limit is passed through entirely unchanged, and (provided its
metadata did not already carry a `truncated` key) its `truncated` flag
reads false, making the flag read true exactly when the original length
exceeded `max_chars`.  The embedding is a total function: no input raises. -/
theorem claim_C4_preprocess_truncation (docs : List Document) (max_chars : Nat)
    (i : Nat) (d : Document) (hd : docs[i]? = some d)
    (hflag : List.lookup "truncated" d.metadata = none) :
    (preprocess max_chars docs).length = docs.length ∧
    (preprocess max_chars docs)[i]? = some (truncate_doc max_chars d) ∧
    (d.page_content.length > max_chars →
      (truncate_doc max_chars d).page_content =
        d.page_content.take max_chars ++ marker ∧
      (truncate_doc max_chars d).page_content.length ≤
        max_chars + marker.length ∧
      List.lookup "truncated" (truncate_doc max_chars d).metadata =
        some (MVal.bool true) ∧
      List.lookup "original_length" (truncate_doc max_chars d).metadata =
        some (MVal.nat d.page_content.length)) ∧
    (¬ d.page_content.length > max_chars → truncate_doc max_chars d = d) ∧
    truncFlag (truncate_doc max_chars d).metadata =
      decide (d.page_content.length > max_chars) := by
  refine ⟨List.length_map docs (truncate_doc max_chars), ?_, ?_, ?_, ?_⟩
  · rw [preprocess, List.getElem?_map, hd]
    rfl
  · intro hgt
    have htd : truncate_doc max_chars d =
        { page_content := d.page_content.take max_chars ++ marker,
          metadata := mergeTrunc d.metadata d.page_content.length } := by
      rw [truncate_doc, if_pos hgt]
    refine ⟨by rw [htd], ?_, ?_, ?_⟩
    · rw [htd]
      simp only [List.length_append, List.length_take]
      omega
    · rw [htd]
      exact mergeTrunc_lookup_truncated d.metadata d.page_content.length
    · rw [htd]
      exact mergeTrunc_lookup_original d.metadata d.page_content.length
  · intro hle
    rw [truncate_doc, if_neg hle]
  · by_cases hgt : d.page_content.length > max_chars
    · have htd : truncate_doc max_chars d =
          { page_content := d.page_content.take max_chars ++ marker,
            metadata := mergeTrunc d.metadata d.page_content.length } := by
        rw [truncate_doc, if_pos hgt]
      rw [htd]
      simp only [truncFlag, mergeTrunc_lookup_truncated]
      exact (decide_eq_true hgt).symm
    · have htd : truncate_doc max_chars d = d := by
        rw [truncate_doc, if_neg hgt]
      rw [htd]
      simp only [truncFlag, hflag]
      exact (decide_eq_false hgt).symm

/-- C4 witness: two concrete documents and `max_chars = 3`; the first is
short and passes through unchanged with a false flag, instantiating every
hypothesis of the preprocessing theorem. -/
theorem claim_C4_witness :
    let d := ({ page_content := ['h', 'i'], metadata := [] } : Document)
    let docs := [d,
      ({ page_content := ['a', 'b', 'c', 'd', 'e'], metadata := [] } : Document)]
    (preprocess 3 docs).length = docs.length ∧
    (preprocess 3 docs)[0]? = some (truncate_doc 3 d) ∧
    (d.page_content.length > 3 →
      (truncate_doc 3 d).page_content = d.page_content.take 3 ++ marker ∧
      (truncate_doc 3 d).page_content.length ≤ 3 + marker.length ∧
      List.lookup "truncated" (truncate_doc 3 d).metadata =
        some (MVal.bool true) ∧
      List.lookup "original_length" (truncate_doc 3 d).metadata =
        some (MVal.nat d.page_content.length)) ∧
    (¬ d.page_content.length > 3 → truncate_doc 3 d = d) ∧
    truncFlag (truncate_doc 3 d).metadata =
      decide (d.page_content.length > 3) :=
  claim_C4_preprocess_truncation
    [({ page_content := ['h', 'i'], metadata := [] } : Document),
      ({ page_content := ['a', 'b', 'c', 'd', 'e'], metadata := [] } : Document)]
    3 0 ({ page_content := ['h', 'i'], metadata := [] } : Document)
    (by decide) (by decide)

/-- Timeout lemma: if every deadline check before offset `i₀` passes, no
insertion fails and no save fails, and the check at offset `i₀` (a real
batch, `i₀ < length`) finds the elapsed time strictly above the limit, the
loop exits with `timedOut` at `processed_count = i₀`, the store holding the
first `i₀` documents and the checkpoint exactly as saved after the last
completed batch — the timeout path touches neither. -/
theorem buildLoop_first_timeout (orc : Oracle) (tds : List Document) (ts : Nat)
    (i₀ : Nat) (hcross : orc.elapsed i₀ > ts)
    (hok : ∀ i', i' < i₀ → orc.elapsed i' ≤ ts)
    (hnf : ∀ i', orc.insertFails i' = false)
    (hnsf : ∀ i', orc.saveFails i' = false)
    (hreach : i₀ < tds.length) :
    ∀ fuel i vs ck tr, tds.length - i < fuel → i ≤ i₀ → (i₀ - i) % 50 = 0 →
      vs = some (tds.take i) ∨ vs = none ∧ i = 0 →
      (buildLoop orc tds ts true fuel i vs i ck tr).res = LoopRes.timedOut ∧
      (buildLoop orc tds ts true fuel i vs i ck tr).pc = i₀ ∧
      (buildLoop orc tds ts true fuel i vs i ck tr).vs =
        (if i = i₀ then vs else some (tds.take i₀)) ∧
      (buildLoop orc tds ts true fuel i vs i ck tr).ck =
        (if i = i₀ then ck else some (CkBlob.valid (tds.take i₀) i₀)) := by
  intro fuel
  induction fuel with
  | zero =>
      intro i vs ck tr hfuel hle halign hinv
      omega
  | succ fuel ih =>
      intro i vs ck tr hfuel hle halign hinv
      by_cases heq : i = i₀
      · subst heq
        rw [buildLoop_timeout_step orc tds ts true fuel i vs i ck tr hreach hcross]
        exact ⟨rfl, rfl, by rw [if_pos rfl], by rw [if_pos rfl]⟩
      · have hlt : i < i₀ := lt_of_le_of_ne hle heq
        have hstep : i + 50 ≤ i₀ := by omega
        have hi : i < tds.length := by omega
        have hne : ¬ orc.elapsed i > ts := by
          have := hok i hlt; omega
        have hvs' : insertBatch vs ((tds.drop i).take 50) = tds.take (i + 50) :=
          insertBatch_take tds i vs hinv
        have hbl : ((tds.drop i).take 50).length = 50 := by
          simp only [List.length_take, List.length_drop]
          omega
        rw [buildLoop_ok_step orc tds ts true fuel i vs i ck tr hi hne (hnf i)]
        simp only [hnsf i, hvs', hbl]
        obtain ⟨g1, g2, g3, g4⟩ := ih (i + 50) (some (tds.take (i + 50)))
          (some (CkBlob.valid (tds.take (i + 50)) (i + 50)))
          (tr ++ [Ev.saveCk (i + 50) true]) (by omega) hstep (by omega)
          (Or.inl rfl)
        refine ⟨g1, g2, ?_, ?_⟩
        · rw [g3, if_neg heq]
          by_cases h50 : i + 50 = i₀
          · rw [if_pos h50, h50]
          · rw [if_neg h50]
        · rw [g4, if_neg heq]
          by_cases h50 : i + 50 = i₀
          · rw [if_pos h50, h50]
          · rw [if_neg h50]

/-- C5 amended: the deadline check before each batch uses a strict
comparison (`elapsed_time > timeout_seconds`, `vector_store.py` line 101);
when the elapsed time at the start of the batch at offset `i₀` strictly
exceeds the deadline (every earlier check having passed, no failures), the
build fails with the timeout error, `processed_count` stays at `i₀`, no
final index is persisted, and the checkpoint file is exactly the one saved
after the last completed batch (none if no batch completed) — the timeout
path performs no checkpoint mutation, so a resuming caller keeps all
progress up to the last completed batch. -/
theorem claim_C5_amended_strict_deadline (docs : List Document)
    (p : List String) (t : Nat) (md : Option Nat) (orc : Oracle) (i₀ : Nat)
    (hcross : t * 60 < orc.elapsed i₀)
    (hok : ∀ i', i' < i₀ → orc.elapsed i' ≤ t * 60)
    (hnf : ∀ i', orc.insertFails i' = false)
    (hnsf : ∀ i', orc.saveFails i' = false)
    (halign : i₀ % 50 = 0)
    (hreach : i₀ < (preprocess 2000 (limitDocs md docs)).length) :
    let tds := preprocess 2000 (limitDocs md docs)
    let o := create_vector_store docs (some p) t md none orc
    o.result = BResult.timeout ∧ o.pc = i₀ ∧
    o.vs = (if i₀ = 0 then none else some (tds.take i₀)) ∧
    o.ck = (if i₀ = 0 then none else some (CkBlob.valid (tds.take i₀) i₀)) ∧
    o.persisted = none := by
  intro tds o
  obtain ⟨g1, g2, g3, g4⟩ := buildLoop_first_timeout orc tds (t * 60) i₀
    hcross hok hnf hnsf hreach (tds.length + 1) 0 none none [] (by omega)
    (Nat.zero_le _) (by omega) (Or.inr ⟨rfl, rfl⟩)
  have he : o = runWithCk orc tds (t * 60) none 0 none [] := rfl
  rw [he, runWithCk_timeout_eq orc tds (t * 60) none 0 none [] g1]
  refine ⟨rfl, g2, ?_, ?_, rfl⟩
  · rw [g3]
    by_cases h0 : i₀ = 0
    · rw [if_pos h0.symm, if_pos h0]
    · rw [if_neg (fun hh => h0 hh.symm), if_neg h0]
  · rw [g4]
    by_cases h0 : i₀ = 0
    · rw [if_pos h0.symm, if_pos h0]
    · rw [if_neg (fun hh => h0 hh.symm), if_neg h0]

/-- C5 counterexample: the claim says the build fails with timeout as soon
as the elapsed time has REACHED the deadline.  With a deadline of 0 minutes
and an elapsed reading of exactly 0 at the start of the first (and only)
batch, the elapsed time has reached the deadline, yet the source's strict
comparison lets the batch proceed and the build returns success, not
timeout. -/
theorem claim_C5_counterexample :
    goodOracle.elapsed 0 ≥ 0 * 60 ∧
    (create_vector_store [({ page_content := ['a'], metadata := [] } : Document)]
      (some ["idx"]) 0 none none goodOracle).result = BResult.ok ∧
    BResult.ok ≠ BResult.timeout := by
  refine ⟨by decide, by decide, by decide⟩

/-- An oracle whose clock is already past any one-minute deadline at the
first check. -/
def lateOracle : Oracle := ⟨fun _ => 61, fun _ => false, fun _ => false⟩

/-- C5 witness: one document, one-minute deadline, first check reads 61
seconds: the build times out before the first batch with nothing processed,
nothing persisted and no checkpoint written. -/
theorem claim_C5_witness :
    let tds := preprocess 2000 (limitDocs none
      [({ page_content := ['a'], metadata := [] } : Document)])
    let o := create_vector_store
      [({ page_content := ['a'], metadata := [] } : Document)] (some ["idx"]) 1
      none none lateOracle
    o.result = BResult.timeout ∧ o.pc = 0 ∧
    o.vs = (if 0 = 0 then none else some (tds.take 0)) ∧
    o.ck = (if 0 = 0 then none else some (CkBlob.valid (tds.take 0) 0)) ∧
    o.persisted = none :=
  claim_C5_amended_strict_deadline
    [({ page_content := ['a'], metadata := [] } : Document)] ["idx"] 1 none
    lateOracle 0 (by decide) (fun i' hi' => absurd hi' (Nat.not_lt_zero i'))
    (fun _ => rfl) (fun _ => rfl) (by decide) (by decide)

/-- Failure lemma: with all earlier checks passing and earlier insertions
succeeding, an insertion failure for the batch at offset `i₀` makes the
loop exit through the handler with `failed i₀` and `processed_count` still
`i₀`.  If at least one batch was committed before (`0 < i₀`), the handler
first performs the best-effort save — the trace's last event is a
successful save at `i₀` and the checkpoint holds the first `i₀` documents;
if the very first batch failed with no store yet, the guard
`if checkpoint_file and vector_store:` skips the save and the checkpoint
state and trace are left untouched. -/
theorem buildLoop_first_failure (orc : Oracle) (tds : List Document) (ts : Nat)
    (i₀ : Nat) (hnt : ∀ i', orc.elapsed i' ≤ ts)
    (hnf : ∀ i', i' < i₀ → orc.insertFails i' = false)
    (hfail : orc.insertFails i₀ = true)
    (hnsf : ∀ i', orc.saveFails i' = false)
    (hreach : i₀ < tds.length) :
    ∀ fuel i vs ck tr, tds.length - i < fuel → i ≤ i₀ → (i₀ - i) % 50 = 0 →
      vs = some (tds.take i) ∨ vs = none ∧ i = 0 →
      (buildLoop orc tds ts true fuel i vs i ck tr).res = LoopRes.failed i₀ ∧
      (buildLoop orc tds ts true fuel i vs i ck tr).pc = i₀ ∧
      (0 < i₀ →
        (buildLoop orc tds ts true fuel i vs i ck tr).vs =
          some (tds.take i₀) ∧
        (buildLoop orc tds ts true fuel i vs i ck tr).ck =
          some (CkBlob.valid (tds.take i₀) i₀) ∧
        ∃ pre, (buildLoop orc tds ts true fuel i vs i ck tr).tr =
          pre ++ [Ev.saveCk i₀ true]) ∧
      (i₀ = 0 → vs = none →
        (buildLoop orc tds ts true fuel i vs i ck tr).vs = none ∧
        (buildLoop orc tds ts true fuel i vs i ck tr).ck = ck ∧
        (buildLoop orc tds ts true fuel i vs i ck tr).tr = tr) := by
  intro fuel
  induction fuel with
  | zero =>
      intro i vs ck tr hfuel hle halign hinv
      omega
  | succ fuel ih =>
      intro i vs ck tr hfuel hle halign hinv
      by_cases heq : i = i₀
      · subst heq
        have hne : ¬ orc.elapsed i > ts := by
          have := hnt i; omega
        rw [buildLoop_fail_step orc tds ts true fuel i vs i ck tr hreach hne hfail]
        cases vs with
        | none =>
            refine ⟨rfl, rfl, ?_, ?_⟩
            · intro hpos
              rcases hinv with hl | ⟨_, hz⟩
              · exact absurd hl (by simp)
              · omega
            · intro _ _
              exact ⟨rfl, rfl, rfl⟩
        | some l =>
            have hl : l = tds.take i := by
              rcases hinv with hl | ⟨hl, _⟩
              · exact Option.some.inj hl
              · exact absurd hl (by simp)
            simp only [hnsf i]
            refine ⟨by trivial, by trivial, ?_, ?_⟩
            · intro _
              exact ⟨by rw [hl], by rw [hl], ⟨tr, rfl⟩⟩
            · intro _ hnone
              exact absurd hnone (by simp)
      · have hlt : i < i₀ := lt_of_le_of_ne hle heq
        have hstep : i + 50 ≤ i₀ := by omega
        have hi : i < tds.length := by omega
        have hne : ¬ orc.elapsed i > ts := by
          have := hnt i; omega
        have hvs' : insertBatch vs ((tds.drop i).take 50) = tds.take (i + 50) :=
          insertBatch_take tds i vs hinv
        have hbl : ((tds.drop i).take 50).length = 50 := by
          simp only [List.length_take, List.length_drop]
          omega
        rw [buildLoop_ok_step orc tds ts true fuel i vs i ck tr hi hne
          (hnf i hlt)]
        simp only [hnsf i, hvs', hbl]
        obtain ⟨g1, g2, g3, _⟩ := ih (i + 50) (some (tds.take (i + 50)))
          (some (CkBlob.valid (tds.take (i + 50)) (i + 50)))
          (tr ++ [Ev.saveCk (i + 50) true]) (by omega) hstep (by omega)
          (Or.inl rfl)
        refine ⟨g1, g2, g3, ?_⟩
        intro h0
        omega

/-- C6 amended: when the insertion of the batch at offset `i₀ = 50 * b`
(`b ≥ 1`, i.e. at least one batch already committed) fails, the builder
first performs a best-effort save of the committed progress — the last
trace event is a successful checkpoint save at `i₀`, and the checkpoint
holds exactly the first `i₀` preprocessed documents — and then fails with
the underlying cause (`batchFailed i₀`) without retrying the batch and
without persisting a final index; a fresh invocation that finds this
checkpoint resumes past the committed batches and completes the build.
(When the very first batch fails, the guard `if checkpoint_file and
vector_store:` skips the save entirely, as the counterexample shows.) -/
theorem claim_C6_amended_save_then_fail (docs : List Document)
    (p : List String) (t : Nat) (md : Option Nat) (orc orc2 : Oracle)
    (b : Nat) (hb : 0 < b)
    (hreach : 50 * b < (preprocess 2000 (limitDocs md docs)).length)
    (hnt : ∀ i', orc.elapsed i' ≤ t * 60)
    (hnf : ∀ i', i' < 50 * b → orc.insertFails i' = false)
    (hfail : orc.insertFails (50 * b) = true)
    (hnsf : ∀ i', orc.saveFails i' = false)
    (hnt2 : ∀ i', orc2.elapsed i' ≤ t * 60)
    (hnf2 : ∀ i', orc2.insertFails i' = false) :
    let tds := preprocess 2000 (limitDocs md docs)
    let i₀ := 50 * b
    let o := create_vector_store docs (some p) t md none orc
    o.result = BResult.batchFailed i₀ ∧ o.pc = i₀ ∧
    o.ck = some (CkBlob.valid (tds.take i₀) i₀) ∧
    (∃ pre, o.trace = pre ++ [Ev.saveCk i₀ true]) ∧
    o.persisted = none ∧
    (create_vector_store docs (some p) t md
        (some (CkBlob.valid (tds.take i₀) i₀)) orc2).result = BResult.ok ∧
    (create_vector_store docs (some p) t md
        (some (CkBlob.valid (tds.take i₀) i₀)) orc2).vs = some tds ∧
    (create_vector_store docs (some p) t md
        (some (CkBlob.valid (tds.take i₀) i₀)) orc2).pc = tds.length := by
  intro tds i₀ o
  have hpos : 0 < i₀ := by omega
  obtain ⟨g1, g2, g3, _⟩ := buildLoop_first_failure orc tds (t * 60) i₀ hnt
    hnf hfail hnsf hreach (tds.length + 1) 0 none none [] (by omega)
    (Nat.zero_le _) (by omega) (Or.inr ⟨rfl, rfl⟩)
  obtain ⟨hvs, hck, htr⟩ := g3 hpos
  have he : o = runWithCk orc tds (t * 60) none 0 none [] := rfl
  have hrr : create_vector_store docs (some p) t md
      (some (CkBlob.valid (tds.take i₀) i₀)) orc2 =
      runWithCk orc2 tds (t * 60) (some (tds.take i₀)) i₀
        (some (CkBlob.valid (tds.take i₀) i₀)) [Ev.loadCk true] := rfl
  obtain ⟨r1, r2, r3, _, _, _⟩ := runWithCk_good orc2 tds (t * 60)
    (some (tds.take i₀)) i₀ (some (CkBlob.valid (tds.take i₀) i₀))
    [Ev.loadCk true] hnt2 hnf2 (Or.inl rfl) (le_of_lt hreach)
    (Nat.lt_of_le_of_lt (Nat.zero_le _) hreach)
  rw [he, runWithCk_failed_eq orc tds (t * 60) none 0 none [] i₀ g1, hrr]
  exact ⟨rfl, g2, hck, htr, rfl, r1, r2, r3⟩

/-- An oracle whose very first batch insertion fails. -/
def failFirstOracle : Oracle := ⟨fun _ => 0, fun i => i == 0, fun _ => false⟩

/-- C6 counterexample: the claim says the builder attempts a best-effort
checkpoint save on insertion failure of ANY batch.  When the very first
batch fails there is no store yet, the guard `if checkpoint_file and
vector_store:` is false, and no save is attempted: the build fails with the
trace completely empty (no `saveCk` event) and no checkpoint written. -/
theorem claim_C6_counterexample :
    (create_vector_store [({ page_content := ['a'], metadata := [] } : Document)]
      (some ["idx"]) 1 none none failFirstOracle).result =
        BResult.batchFailed 0 ∧
    (create_vector_store [({ page_content := ['a'], metadata := [] } : Document)]
      (some ["idx"]) 1 none none failFirstOracle).trace = [] ∧
    (create_vector_store [({ page_content := ['a'], metadata := [] } : Document)]
      (some ["idx"]) 1 none none failFirstOracle).ck = none := by
  refine ⟨by decide, by decide, by decide⟩

/-- An oracle whose insertion fails exactly for the batch at offset 50. -/
def failAt50Oracle : Oracle := ⟨fun _ => 0, fun i => i == 50, fun _ => false⟩

/-- C6 witness: 51 one-character documents, second batch (offset 50)
fails; the build saves the 50 committed documents, fails with the cause,
and a fresh invocation resuming from that checkpoint completes. -/
theorem claim_C6_witness :
    let tds := preprocess 2000 (limitDocs none
      (List.replicate 51 ({ page_content := ['a'], metadata := [] } : Document)))
    let i₀ := 50 * 1
    let o := create_vector_store
      (List.replicate 51 ({ page_content := ['a'], metadata := [] } : Document))
      (some ["idx"]) 1 none none failAt50Oracle
    o.result = BResult.batchFailed i₀ ∧ o.pc = i₀ ∧
    o.ck = some (CkBlob.valid (tds.take i₀) i₀) ∧
    (∃ pre, o.trace = pre ++ [Ev.saveCk i₀ true]) ∧
    o.persisted = none ∧
    (create_vector_store
        (List.replicate 51 ({ page_content := ['a'], metadata := [] } : Document))
        (some ["idx"]) 1 none
        (some (CkBlob.valid (tds.take i₀) i₀)) goodOracle).result = BResult.ok ∧
    (create_vector_store
        (List.replicate 51 ({ page_content := ['a'], metadata := [] } : Document))
        (some ["idx"]) 1 none
        (some (CkBlob.valid (tds.take i₀) i₀)) goodOracle).vs = some tds ∧
    (create_vector_store
        (List.replicate 51 ({ page_content := ['a'], metadata := [] } : Document))
        (some ["idx"]) 1 none
        (some (CkBlob.valid (tds.take i₀) i₀)) goodOracle).pc = tds.length :=
  claim_C6_amended_save_then_fail
    (List.replicate 51 ({ page_content := ['a'], metadata := [] } : Document))
    ["idx"] 1 none failAt50Oracle goodOracle 1 (by decide) (by decide)
    (fun _ => Nat.zero_le _) (by decide) (by decide) (fun _ => rfl)
    (fun _ => Nat.zero_le _) (fun _ => rfl)

/-- C7 counterexample: the claim says that on success the builder persists
the final index and THEN deletes the checkpoint.  A concrete successful
build shows the opposite program order: the trace is
`[saveCk, deleteCk, persistIdx]` — the checkpoint deletion (lines 162-167)
happens strictly before the final persistence (lines 169-172), and no
persistence event precedes the deletion. -/
theorem claim_C7_counterexample :
    (create_vector_store [({ page_content := ['a'], metadata := [] } : Document)]
      (some ["idx"]) 1 none none goodOracle).result = BResult.ok ∧
    (create_vector_store [({ page_content := ['a'], metadata := [] } : Document)]
      (some ["idx"]) 1 none none goodOracle).trace =
      [Ev.saveCk 1 true, Ev.deleteCk, Ev.persistIdx] ∧
    comesBefore Ev.persistIdx Ev.deleteCk
      (create_vector_store [({ page_content := ['a'], metadata := [] } : Document)]
        (some ["idx"]) 1 none none goodOracle).trace = false := by
  refine ⟨by decide, by decide, by decide⟩

/-- C7 amended: on reaching the end of the sequence with no failure (and a
persist path given), the builder deletes the checkpoint for that
destination and THEN persists the final index — the deletion strictly
precedes the persistence in the trace — and returns the store; consequently
after every successful build no checkpoint exists at that destination's
checkpoint location. -/
theorem claim_C7_amended_delete_then_persist (docs : List Document)
    (p : List String) (t : Nat) (md : Option Nat) (orc : Oracle)
    (hdocs : docs ≠ [])
    (hnt : ∀ i', orc.elapsed i' ≤ t * 60)
    (hnf : ∀ i', orc.insertFails i' = false)
    (hnsf : ∀ i', orc.saveFails i' = false) :
    let tds := preprocess 2000 (limitDocs md docs)
    let o := create_vector_store docs (some p) t md none orc
    o.result = BResult.ok ∧ o.ck = none ∧ o.persisted = some tds ∧
    comesBefore Ev.deleteCk Ev.persistIdx o.trace = true := by
  intro tds o
  have hn : 0 < tds.length := by
    show 0 < (preprocess 2000 (limitDocs md docs)).length
    rw [preprocess, List.length_map]
    exact limitDocs_pos md docs hdocs
  have he : o = runWithCk orc tds (t * 60) none 0 none [] := rfl
  obtain ⟨r1, _, _, r4, r5, r6⟩ := runWithCk_good orc tds (t * 60) none 0
    none [] hnt hnf (Or.inr ⟨rfl, rfl⟩) (Nat.zero_le _) hn
  rw [he]
  exact ⟨r1, r4, r5, r6 hnsf hn⟩

/-- C7 witness: a concrete successful build deletes its checkpoint before
persisting and leaves no checkpoint behind. -/
theorem claim_C7_witness :
    let tds := preprocess 2000 (limitDocs none
      [({ page_content := ['a'], metadata := [] } : Document)])
    let o := create_vector_store
      [({ page_content := ['a'], metadata := [] } : Document)] (some ["idx"]) 1
      none none goodOracle
    o.result = BResult.ok ∧ o.ck = none ∧ o.persisted = some tds ∧
    comesBefore Ev.deleteCk Ev.persistIdx o.trace = true :=
  claim_C7_amended_delete_then_persist
    [({ page_content := ['a'], metadata := [] } : Document)] ["idx"] 1 none
    goodOracle (by decide) (fun _ => Nat.zero_le _) (fun _ => rfl)
    (fun _ => rfl)

/-- The dict returned by the retrieval chain / by `query_retrieval_chain`:
a `"result"` text and a `"source_documents"` list. -/
structure QDict where
  result : List Char
  source_documents : List Document
deriving DecidableEq

/-- Behaviour of the worker thread running `run_query`
(`retrieval_chain.py` lines 78-83): it either assigns `result` after `t`
seconds, or raises and assigns `error` after `t` seconds.  Exactly one of
the two happens per call. -/
inductive WorkerRun where
  | completes (r : QDict) (t : Nat)
  | raises (msg : List Char) (t : Nat)

/-- The dict returned on timeout (`retrieval_chain.py` line 93). -/
def timedOutQDict : QDict := ⟨"Query timed out".toList, []⟩

/-- The result text returned on worker failure, carrying the original
cause (`retrieval_chain.py` line 96: `f"Query failed: {error}"`). -/
def queryFailedMsg (msg : List Char) : List Char :=
  "Query failed: ".toList ++ msg

/-- `query_retrieval_chain`, `retrieval_chain.py` lines 61-98.  The worker
runs on a daemon thread; the caller blocks on `thread.join(timeout=60)`,
i.e. until the worker finishes or 60 seconds elapse, whichever is first —
the second component is that blocking time.  If the worker is still alive
after the join the call returns the timed-out dict (the worker is
abandoned, not killed); if the worker raised, the failure dict carrying the
cause; otherwise the worker's own result. -/
def query_retrieval_chain (w : WorkerRun) : QDict × Nat :=
  match w with
  | WorkerRun.completes r t =>
      if t ≤ 60 then (r, t) else (timedOutQDict, 60)
  | WorkerRun.raises msg t =>
      if t ≤ 60 then (⟨queryFailedMsg msg, []⟩, t) else (timedOutQDict, 60)

/-- C8: every query call returns exactly one outcome — the function is
total — and: the caller is never blocked past the 60-second timeout; a
worker completing before the timeout yields its true result; a worker
raising before the timeout yields the failure dict carrying the original
cause; a worker still running when the timeout elapses yields the
timed-out dict, with the caller unblocked at 60 seconds. -/
theorem claim_C8_query_outcomes (w : WorkerRun) (r : QDict) (m : List Char)
    (t u : Nat) (ht : t < 60) (hu : 60 < u) :
    (query_retrieval_chain w).2 ≤ 60 ∧
    query_retrieval_chain (WorkerRun.completes r t) = (r, t) ∧
    query_retrieval_chain (WorkerRun.raises m t) =
      (⟨queryFailedMsg m, []⟩, t) ∧
    query_retrieval_chain (WorkerRun.completes r u) = (timedOutQDict, 60) ∧
    query_retrieval_chain (WorkerRun.raises m u) = (timedOutQDict, 60) := by
  have hu' : ¬ u ≤ 60 := by omega
  refine ⟨?_, ?_, ?_, ?_, ?_⟩
  · cases w with
    | completes r' t' =>
        by_cases h : t' ≤ 60
        · simp only [query_retrieval_chain, if_pos h]
          exact h
        · simp only [query_retrieval_chain, if_neg h]
          exact Nat.le_refl 60
    | raises m' t' =>
        by_cases h : t' ≤ 60
        · simp only [query_retrieval_chain, if_pos h]
          exact h
        · simp only [query_retrieval_chain, if_neg h]
          exact Nat.le_refl 60
  · simp only [query_retrieval_chain, if_pos (Nat.le_of_lt ht)]
  · simp only [query_retrieval_chain, if_pos (Nat.le_of_lt ht)]
  · simp only [query_retrieval_chain, if_neg hu']
  · simp only [query_retrieval_chain, if_neg hu']

/-- C8 witness: a worker finishing in 5 seconds returns its result, one
raising in 5 seconds returns the failure dict, one needing 61 seconds is
abandoned at the 60-second timeout; no call blocks past 60 seconds. -/
theorem claim_C8_witness :
    (query_retrieval_chain (WorkerRun.completes ⟨['x'], []⟩ 5)).2 ≤ 60 ∧
    query_retrieval_chain (WorkerRun.completes ⟨['a'], []⟩ 5) =
      (⟨['a'], []⟩, 5) ∧
    query_retrieval_chain (WorkerRun.raises ['b'] 5) =
      (⟨queryFailedMsg ['b'], []⟩, 5) ∧
    query_retrieval_chain (WorkerRun.completes ⟨['a'], []⟩ 61) =
      (timedOutQDict, 60) ∧
    query_retrieval_chain (WorkerRun.raises ['b'] 61) = (timedOutQDict, 60) :=
  claim_C8_query_outcomes (WorkerRun.completes ⟨['x'], []⟩ 5) ⟨['a'], []⟩
    ['b'] 5 61 (by decide) (by decide)
